import Mathlib

/-!
# Verification of the CuttingPage video timeline editor

Shallow embedding of `src/vite-project/src/pages/CuttingPage.tsx`.

Conventions of the embedding:
* JavaScript numbers are modelled by `ℚ` (exact arithmetic over the reals the
  floats approximate).  Where a JavaScript expression can produce a non-finite
  value (`NaN` / `±Infinity`, e.g. division by zero) the model makes this
  explicit, either with `Option ℚ` (`none` = non-finite) or by case analysis.
* Asynchronous media events (the `seeked` signal, raster-capture success) are
  modelled by oracles passed in as explicit parameters.
* React component state is passed explicitly; event handlers become functions
  from old state (plus the values their closure captured at registration time)
  to new state.
-/

namespace CuttingPage

/-- Constant `minChunk = 2` from the component (minimum chunk length, s). -/
def minChunk : ℚ := 2

/-- Constant `maxChunk = 10` from the component (maximum chunk length, s). -/
def maxChunk : ℚ := 10

/-- Constant `thumbCount = 15` from the component. -/
def thumbCount : ℕ := 15

/-- A user-marked time range: `{ start: number; end: number }`.
`end` is a Lean keyword, hence the guillemets. -/
structure Chunk where
  start : ℚ
  «end» : ℚ
deriving DecidableEq, Repr

/-- Outcome of `handleAddChunk`: the silent early return (no video element or
`duration <= 0`), a rejection surfaced to the user via `alert`, or a
successful append. -/
inductive AddChunkResult where
  | noVideo : AddChunkResult
  | chunkOverlapAlert : AddChunkResult
  | chunkTooShortAlert : AddChunkResult
  | added : Chunk → AddChunkResult
deriving DecidableEq, Repr

/-- The overlap test from `handleAddChunk`:
`chunks.some((c) => !(end <= c.start || start >= c.end))`. -/
def overlapsSome (start «end» : ℚ) (chunks : List Chunk) : Bool :=
  chunks.any fun c => !(decide («end» ≤ c.start) || decide (start ≥ c.«end»))

/-- `handleAddChunk` (CuttingPage.tsx lines 149–158).  `hasVideo` models
`videoRef.current` being non-null, `currentTime` is `video.currentTime`,
`duration` and `chunks` are the component state.  Returns the outcome together
with the new `chunks` state. -/
def handleAddChunk (hasVideo : Bool) (currentTime duration : ℚ)
    (chunks : List Chunk) : AddChunkResult × List Chunk :=
  if !hasVideo || duration ≤ 0 then (.noVideo, chunks)
  else
    let start := currentTime
    let «end» := min (start + maxChunk) duration
    if overlapsSome start «end» chunks then (.chunkOverlapAlert, chunks)
    else if «end» - start < minChunk then (.chunkTooShortAlert, chunks)
    else (.added ⟨start, «end»⟩, chunks ++ [⟨start, «end»⟩])

/-- One `handleAddChunk` user action: the video-element presence flag, the
playhead time and the duration at the moment of the click. -/
structure AddOp where
  hasVideo : Bool
  currentTime : ℚ
  duration : ℚ

/-- The `chunks` state after a sequence of `handleAddChunk` calls starting
from the initial empty state (`useState([])`). -/
def runAddChunks (ops : List AddOp) : List Chunk :=
  ops.foldl (fun chunks op =>
    (handleAddChunk op.hasVideo op.currentTime op.duration chunks).2) []

/-- The spec's pairwise non-overlap property: for all chunks `A`, `B` in the
set, `A == B or A.end <= B.start or B.end <= A.start`. -/
def NoOverlap (l : List Chunk) : Prop :=
  ∀ a ∈ l, ∀ b ∈ l, a = b ∨ a.«end» ≤ b.start ∨ b.«end» ≤ a.start

theorem noOverlap_nil : NoOverlap [] := by
  intro a ha
  simp at ha

/-- If the overlap scan comes back `false`, the candidate interval clears
every existing chunk on one side or the other. -/
theorem overlapsSome_eq_false_iff {s e : ℚ} {chunks : List Chunk} :
    overlapsSome s e chunks = false ↔
      ∀ c ∈ chunks, e ≤ c.start ∨ c.«end» ≤ s := by
  unfold overlapsSome
  simp [List.any_eq_false, ge_iff_le]
  constructor
  · intro h c hc
    rcases le_or_lt e c.start with h1 | h1
    · exact Or.inl h1
    · exact Or.inr (h c hc h1)
  · intro h c hc hlt
    rcases h c hc with h1 | h1
    · exact absurd hlt (not_lt.mpr h1)
    · exact h1

/-- A single `handleAddChunk` step preserves pairwise non-overlap. -/
theorem handleAddChunk_preserves_noOverlap (hasVideo : Bool)
    (currentTime duration : ℚ) (chunks : List Chunk)
    (h : NoOverlap chunks) :
    NoOverlap (handleAddChunk hasVideo currentTime duration chunks).2 := by
  unfold handleAddChunk
  split
  · exact h
  · set s := currentTime with hs
    set e := min (currentTime + maxChunk) duration with he
    by_cases hov : overlapsSome s e chunks
    · simp only [hov, if_true]
      exact h
    · rw [Bool.not_eq_true] at hov
      have hclear := overlapsSome_eq_false_iff.mp hov
      simp only [hov, Bool.false_eq_true, if_false]
      split
      · exact h
      · intro a ha b hb
        simp only [List.mem_append, List.mem_singleton] at ha hb
        rcases ha with ha | ha <;> rcases hb with hb | hb
        · exact h a ha b hb
        · subst hb
          rcases hclear a ha with hc | hc
          · exact Or.inr (Or.inr hc)
          · exact Or.inr (Or.inl hc)
        · subst ha
          rcases hclear b hb with hc | hc
          · exact Or.inr (Or.inl hc)
          · exact Or.inr (Or.inr hc)
        · subst ha; subst hb; exact Or.inl rfl

theorem runAddChunks_aux (ops : List AddOp) (chunks : List Chunk)
    (h : NoOverlap chunks) :
    NoOverlap (ops.foldl (fun chunks op =>
      (handleAddChunk op.hasVideo op.currentTime op.duration chunks).2) chunks) := by
  induction ops generalizing chunks with
  | nil => exact h
  | cons op rest ih =>
      exact ih _ (handleAddChunk_preserves_noOverlap op.hasVideo op.currentTime
        op.duration chunks h)

/-- C1: after any sequence of `addChunk` operations starting from the empty
chunk set (in particular any sequence of successful ones — unsuccessful calls
leave the state unchanged), any two chunks `A`, `B` in the set satisfy
`A = B ∨ A.end ≤ B.start ∨ B.end ≤ A.start`: no two distinct chunks overlap. -/
theorem addChunk_no_overlap_invariant (ops : List AddOp) :
    NoOverlap (runAddChunks ops) :=
  runAddChunks_aux ops [] noOverlap_nil

theorem addChunk_no_overlap_invariant_witness :
    NoOverlap (runAddChunks [⟨true, 5, 20⟩, ⟨true, 12, 20⟩, ⟨true, 0, 20⟩]) :=
  addChunk_no_overlap_invariant [⟨true, 5, 20⟩, ⟨true, 12, 20⟩, ⟨true, 0, 20⟩]

/-- With a video element present and a positive duration, `handleAddChunk`
reduces to the overlap/length checks on the candidate interval. -/
theorem handleAddChunk_pos (currentTime duration : ℚ) (chunks : List Chunk)
    (hd : 0 < duration) :
    handleAddChunk true currentTime duration chunks =
      (if overlapsSome currentTime (min (currentTime + maxChunk) duration) chunks then
        (.chunkOverlapAlert, chunks)
      else if min (currentTime + maxChunk) duration - currentTime < minChunk then
        (.chunkTooShortAlert, chunks)
      else (.added ⟨currentTime, min (currentTime + maxChunk) duration⟩,
        chunks ++ [⟨currentTime, min (currentTime + maxChunk) duration⟩])) := by
  unfold handleAddChunk
  rw [if_neg]
  simp [not_le.mpr hd]

/-- C2: whenever `handleAddChunk` succeeds (duration positive), the chunk it
adds is exactly `{start := currentTime, end := min (currentTime + maxChunk) duration}`
and it is appended after all existing chunks; in particular at
`currentTime = 5`, `duration = 20`, empty chunk list, it adds `{start := 5, end := 15}`. -/
theorem addChunk_success_shape (currentTime duration : ℚ) (chunks : List Chunk)
    (c : Chunk) (l : List Chunk) (hd : 0 < duration)
    (h : handleAddChunk true currentTime duration chunks = (.added c, l)) :
    c = ⟨currentTime, min (currentTime + maxChunk) duration⟩ ∧
      l = chunks ++ [c] ∧
      handleAddChunk true 5 20 [] = (.added ⟨5, 15⟩, [⟨5, 15⟩]) := by
  rw [handleAddChunk_pos currentTime duration chunks hd] at h
  have hscenario : handleAddChunk true 5 20 [] = (.added ⟨5, 15⟩, [⟨5, 15⟩]) := by
    rw [handleAddChunk_pos 5 20 [] (by norm_num)]
    norm_num [overlapsSome, minChunk, maxChunk]
  split at h
  · exact absurd (congrArg Prod.fst h) (by simp)
  · split at h
    · exact absurd (congrArg Prod.fst h) (by simp)
    · have h1 := congrArg Prod.fst h
      have h2 := congrArg Prod.snd h
      simp only at h1 h2
      cases h1
      exact ⟨rfl, h2.symm, hscenario⟩

theorem addChunk_success_shape_witness :
    (0:ℚ) < 20 ∧
      handleAddChunk true 5 20 [] = (.added ⟨5, 15⟩, [⟨5, 15⟩]) ∧
      ((⟨5, 15⟩ : Chunk) = ⟨5, min (5 + maxChunk) 20⟩ ∧
        [(⟨5, 15⟩ : Chunk)] = [] ++ [(⟨5, 15⟩ : Chunk)] ∧
        handleAddChunk true 5 20 [] = (.added ⟨5, 15⟩, [⟨5, 15⟩])) := by
  have hev : handleAddChunk true 5 20 [] = (.added ⟨5, 15⟩, [⟨5, 15⟩]) := by
    unfold handleAddChunk
    norm_num [overlapsSome, minChunk, maxChunk]
  exact ⟨by norm_num, hev,
    addChunk_success_shape 5 20 [] ⟨5, 15⟩ [⟨5, 15⟩] (by norm_num) hev⟩

/-- The candidate interval `[s, e)` intersects the chunk `c` (the spec's
half-open overlap notion: not (`e ≤ c.start` or `c.end ≤ s`)). -/
def Intersects (s e : ℚ) (c : Chunk) : Prop :=
  ¬ (e ≤ c.start ∨ c.«end» ≤ s)

/-- C3: if the candidate interval intersects an existing chunk, or is shorter
than `minChunk`, `handleAddChunk` rejects it (an overlap or too-short alert)
and leaves the chunk list completely unchanged. -/
theorem addChunk_rejected_no_mutation (currentTime duration : ℚ)
    (chunks : List Chunk) (hd : 0 < duration)
    (h : (∃ c ∈ chunks,
          Intersects currentTime (min (currentTime + maxChunk) duration) c) ∨
        min (currentTime + maxChunk) duration - currentTime < minChunk) :
    ((handleAddChunk true currentTime duration chunks).1 = .chunkOverlapAlert ∨
      (handleAddChunk true currentTime duration chunks).1 = .chunkTooShortAlert) ∧
      (handleAddChunk true currentTime duration chunks).2 = chunks := by
  rw [handleAddChunk_pos currentTime duration chunks hd]
  by_cases hov : overlapsSome currentTime (min (currentTime + maxChunk) duration) chunks
  · simp [hov]
  · rw [Bool.not_eq_true] at hov
    have hclear := overlapsSome_eq_false_iff.mp hov
    have hshort : min (currentTime + maxChunk) duration - currentTime < minChunk := by
      rcases h with ⟨c, hc, hint⟩ | h
      · exact absurd (hclear c hc) hint
      · exact h
    simp [hov, hshort]

theorem addChunk_rejected_no_mutation_witness :
    (0:ℚ) < 20 ∧
      ((∃ c ∈ [(⟨5, 15⟩ : Chunk)], Intersects 12 (min (12 + maxChunk) 20) c) ∨
        min (12 + maxChunk) 20 - 12 < minChunk) ∧
      (((handleAddChunk true 12 20 [⟨5, 15⟩]).1 = .chunkOverlapAlert ∨
        (handleAddChunk true 12 20 [⟨5, 15⟩]).1 = .chunkTooShortAlert) ∧
        (handleAddChunk true 12 20 [⟨5, 15⟩]).2 = [⟨5, 15⟩]) := by
  have hh : (∃ c ∈ [(⟨5, 15⟩ : Chunk)],
      Intersects 12 (min (12 + maxChunk) 20) c) ∨
      min (12 + maxChunk) 20 - 12 < minChunk := by
    left
    exact ⟨⟨5, 15⟩, by simp, by norm_num [Intersects, maxChunk]⟩
  exact ⟨by norm_num, hh,
    addChunk_rejected_no_mutation 12 20 [⟨5, 15⟩] (by norm_num) hh⟩

/-- C10: with no video element attached or `duration ≤ 0`, `handleAddChunk`
is a silent no-op: it neither mutates the chunk list nor surfaces an overlap
or too-short alert. -/
theorem addChunk_noop_no_duration (hasVideo : Bool) (currentTime duration : ℚ)
    (chunks : List Chunk) (h : hasVideo = false ∨ duration ≤ 0) :
    handleAddChunk hasVideo currentTime duration chunks = (.noVideo, chunks) ∧
      (handleAddChunk hasVideo currentTime duration chunks).1 ≠ .chunkOverlapAlert ∧
      (handleAddChunk hasVideo currentTime duration chunks).1 ≠ .chunkTooShortAlert := by
  have hcond : handleAddChunk hasVideo currentTime duration chunks = (.noVideo, chunks) := by
    unfold handleAddChunk
    rcases h with h | h
    · rw [if_pos]
      simp [h]
    · rw [if_pos]
      simp [h]
  refine ⟨hcond, ?_, ?_⟩ <;> rw [hcond] <;> simp

theorem addChunk_noop_no_duration_witness :
    (true = false ∨ (0:ℚ) ≤ 0) ∧
      (handleAddChunk true 5 0 [] = (.noVideo, []) ∧
        (handleAddChunk true 5 0 []).1 ≠ .chunkOverlapAlert ∧
        (handleAddChunk true 5 0 []).1 ≠ .chunkTooShortAlert) :=
  ⟨Or.inr le_rfl, addChunk_noop_no_duration true 5 0 [] (Or.inr le_rfl)⟩

/-! ## Timeline click (pixel → time) -/

/-- `handleTimelineClick` (lines 139–147).  `hasRefs` models
`timelineRef.current` and `videoRef.current` both being non-null; `clickX` is
`e.clientX - rect.left`, `width` is `rect.width`.  Returns `some newTime` when
the handler seeks the video and `none` when it is a no-op.  JavaScript
division by a zero width yields `+Infinity` (`clickX > 0`), `-Infinity`
(`clickX < 0`) or `NaN` (`clickX = 0`); `Math.min`/`Math.max` send the
infinities to percent `1` resp. `0`, while `NaN` propagates to `newTime` and
fails the `isFinite` guard.  The model spells those branches out. -/
def handleTimelineClick (hasRefs : Bool) (clickX width duration : ℚ) : Option ℚ :=
  if !hasRefs || duration ≤ 0 then none
  else if width = 0 then
    if 0 < clickX then some (1 * duration)
    else if clickX < 0 then some (0 * duration)
    else none
  else some (max 0 (min 1 (clickX / width)) * duration)

/-- C8: for a rendered timeline (`width > 0`) and positive duration, the
click handler computes the linear map `clickX / width * duration` clamped to
`[0, duration]`; it sends `0 ↦ 0` and `width ↦ duration`, is monotone
non-decreasing in `clickX`, and is a no-op whenever `duration ≤ 0`. -/
theorem pixelToTime_spec (width duration : ℚ) (hW : 0 < width)
    (hD : 0 < duration) :
    (∀ x, handleTimelineClick true x width duration =
      some (max 0 (min duration (x / width * duration)))) ∧
      handleTimelineClick true 0 width duration = some 0 ∧
      handleTimelineClick true width width duration = some duration ∧
      (∀ x₁ x₂ t₁ t₂, x₁ ≤ x₂ →
        handleTimelineClick true x₁ width duration = some t₁ →
        handleTimelineClick true x₂ width duration = some t₂ → t₁ ≤ t₂) ∧
      (∀ hasRefs x d, d ≤ 0 → handleTimelineClick hasRefs x width d = none) := by
  have hW' : width ≠ 0 := ne_of_gt hW
  have hval : ∀ x, handleTimelineClick true x width duration =
      some (max 0 (min duration (x / width * duration))) := by
    intro x
    unfold handleTimelineClick
    rw [if_neg (by simp [not_le.mpr hD]), if_neg hW']
    congr 1
    rw [max_mul_of_nonneg _ _ hD.le, min_mul_of_nonneg _ _ hD.le, zero_mul, one_mul]
  refine ⟨hval, ?_, ?_, ?_, ?_⟩
  · rw [hval 0]
    simp [hD.le]
  · rw [hval width]
    rw [div_self hW', one_mul, min_self, max_eq_right hD.le]
  · intro x₁ x₂ t₁ t₂ hx h₁ h₂
    rw [hval x₁] at h₁
    rw [hval x₂] at h₂
    cases h₁
    cases h₂
    have hdiv : x₁ / width ≤ x₂ / width := (div_le_div_iff_of_pos_right hW).mpr hx
    exact max_le_max le_rfl (min_le_min le_rfl
      (mul_le_mul_of_nonneg_right hdiv hD.le))
  · intro hasRefs x d hd
    unfold handleTimelineClick
    rw [if_pos]
    simp [hd]

theorem pixelToTime_spec_witness :
    (0:ℚ) < 4 ∧ (0:ℚ) < 8 ∧
      ((∀ x, handleTimelineClick true x 4 8 =
        some (max 0 (min 8 (x / 4 * 8)))) ∧
        handleTimelineClick true 0 4 8 = some 0 ∧
        handleTimelineClick true 4 4 8 = some 8 ∧
        (∀ x₁ x₂ t₁ t₂, x₁ ≤ x₂ →
          handleTimelineClick true x₁ 4 8 = some t₁ →
          handleTimelineClick true x₂ 4 8 = some t₂ → t₁ ≤ t₂) ∧
        (∀ hasRefs x d, d ≤ 0 → handleTimelineClick hasRefs x 4 d = none)) :=
  ⟨by norm_num, by norm_num,
    pixelToTime_spec 4 8 (by norm_num) (by norm_num)⟩

/-! ## Render geometry (playhead and chunk projections) -/

/-- JavaScript division on the model's rationals: `none` stands for the
non-finite results (`NaN` when the numerator is also `0`, `±Infinity`
otherwise) that a zero denominator produces. -/
def jsDiv (a b : ℚ) : Option ℚ := if b = 0 then none else some (a / b)

/-- The playhead style (line 205): `left: (currentTime / duration) * 100 %`.
`none` means the computed percentage is not a finite number. -/
def playheadLeftPct (currentTime duration : ℚ) : Option ℚ :=
  (jsDiv currentTime duration).map (· * 100)

/-- A chunk's left offset (line 191): `(chunk.start / duration) * 100`. -/
def chunkLeftPct (c : Chunk) (duration : ℚ) : Option ℚ :=
  (jsDiv c.start duration).map (· * 100)

/-- A chunk's width (line 192): `((chunk.end - chunk.start) / duration) * 100`. -/
def chunkWidthPct (c : Chunk) (duration : ℚ) : Option ℚ :=
  (jsDiv (c.«end» - c.start) duration).map (· * 100)

/-- C4 fails on the code: the render geometry has no guard for
`duration = 0`.  At the initial render state (`duration = 0`,
`currentTime = 0`) the playhead offset is `(0 / 0) * 100`, i.e. `NaN`
(modelled `none`), not `0%`/nothing; a chunk's offset and width divide by
zero the same way. -/
theorem renderGeometry_no_zero_duration_guard :
    playheadLeftPct 0 0 = none ∧
      chunkLeftPct ⟨0, 5⟩ 0 = none ∧
      chunkWidthPct ⟨0, 5⟩ 0 = none :=
  ⟨by simp [playheadLeftPct, jsDiv], by simp [chunkLeftPct, jsDiv],
    by simp [chunkWidthPct, jsDiv]⟩

/-- For every non-zero duration the unguarded linear formula is what
renders. -/
theorem playheadLeftPct_of_ne_zero (t d : ℚ) (hd : d ≠ 0) :
    playheadLeftPct t d = some (t / d * 100) := by
  simp [playheadLeftPct, jsDiv, hd]

/-! ## Duration resolution on time updates -/

/-- The component state the `timeupdate` handler touches. -/
structure PageState where
  duration : ℚ
  currentTime : ℚ
deriving DecidableEq, Repr

/-- `onTimeUpdate` (lines 55–65).  `closureDuration` is the value of the
`duration` state variable captured by the effect closure when the listener
was registered — the effect's dependency array is `[videoUrl]`, so the
listener is *not* re-registered when `duration` changes and keeps the stale
captured value.  `videoCurrentTime` is `video.currentTime`; `seekableEnd` is
`some (video.seekable.end 0)` when `video.seekable.length > 0`, else `none`.
The JS condition is `!isFinite(duration) || duration === 0`; every value ever
stored in the duration state is finite (all setters guard with `isFinite` or
come from a seekable range), so on the model's rationals the condition is
`closureDuration = 0`. -/
def onTimeUpdate (closureDuration : ℚ) (videoCurrentTime : ℚ)
    (seekableEnd : Option ℚ) (st : PageState) : PageState :=
  let st1 : PageState := { st with currentTime := videoCurrentTime }
  if closureDuration = 0 then
    if 0 < videoCurrentTime then
      match seekableEnd with
      | some e => { st1 with duration := e }
      | none => st1
    else st1
  else st1

/-- The `duration` state value at the moment the effect first runs for a
fresh page: `useState<number>(0)` — so the mounted listener's closure holds
`0` forever. -/
def mountClosureDuration : ℚ := 0

/-- C7 fails on the code: the `timeupdate` listener registered at mount
captured `duration = 0` in its closure (the effect only re-runs on a
`videoUrl` change), so the seekable-range fallback keeps firing after a
finite positive duration has been adopted.  Concretely: with the state
duration already 15, a time update at `currentTime = 1` with seekable end `3`
overwrites the duration to `3`. -/
theorem onTimeUpdate_stale_closure_overwrites :
    (0:ℚ) < (PageState.mk 15 0).duration ∧
      onTimeUpdate mountClosureDuration 1 (some 3) (PageState.mk 15 0) =
        PageState.mk 3 1 := by
  constructor
  · norm_num
  · norm_num [onTimeUpdate, mountClosureDuration]

/-- By contrast, a handler whose captured duration is the (non-zero) current
one leaves the adopted duration alone: the fallback branch is guarded by the
captured value, which is the intended check. -/
theorem onTimeUpdate_fresh_closure_keeps_duration (st : PageState)
    (videoCurrentTime : ℚ) (seekableEnd : Option ℚ)
    (h : st.duration ≠ 0) :
    (onTimeUpdate st.duration videoCurrentTime seekableEnd st).duration =
      st.duration := by
  unfold onTimeUpdate
  simp [h]

/-! ## Seek controller -/

/-- The media element as far as this page reads or writes it. -/
structure VideoState where
  currentTime : ℚ
  duration : ℚ
deriving DecidableEq, Repr

inductive SeekError where
  | seekTimeout
deriving DecidableEq, Repr

/-- The fixed seek time budget: `setTimeout(..., 5000)` (line 126). -/
def seekTimeoutMs : ℕ := 5000

/-- What one `seekTo` call did when its promise settled. -/
structure SeekOutcome where
  outcome : Except SeekError Unit
  video : VideoState
  /-- The writes this call made to `video.currentTime`, in order. -/
  positionWrites : List ℚ
  /-- Whether the `seeked` listener added by this call has been removed again
  (by `onSeeked` on success, by the timeout handler on failure). -/
  listenerRemoved : Bool

/-- `seekTo` (lines 121–137).  `seekedAtMs` is the oracle for the media
event: the number of milliseconds after the call at which the `seeked` event
fires, or `none` if it never does.  The promise resolves iff the event beats
the 5000 ms timer; either way `video.currentTime = time` was assigned (the
assignment on line 135 happens before any waiting) and the listener has been
removed when the promise settles. -/
def seekTo (v : VideoState) (time : ℚ) (seekedAtMs : Option ℕ) : SeekOutcome :=
  let v' : VideoState := { v with currentTime := time }
  match seekedAtMs with
  | some t =>
      if t < seekTimeoutMs then ⟨.ok (), v', [time], true⟩
      else ⟨.error .seekTimeout, v', [time], true⟩
  | none => ⟨.error .seekTimeout, v', [time], true⟩

/-- C9: `seekTo` succeeds exactly when the `seeked` event fires within the
5-second budget and fails with `SeekTimeout` otherwise; in either case it has
removed its pending listener, written the target time to the source's
playback position, and made exactly one position write (no retry). -/
theorem seekTo_spec (v : VideoState) (time : ℚ) (seekedAtMs : Option ℕ) :
    ((seekTo v time seekedAtMs).outcome = .ok () ↔
      ∃ t, seekedAtMs = some t ∧ t < seekTimeoutMs) ∧
      ((seekTo v time seekedAtMs).outcome = .error .seekTimeout ↔
        ∀ t, seekedAtMs = some t → seekTimeoutMs ≤ t) ∧
      (seekTo v time seekedAtMs).video.currentTime = time ∧
      (seekTo v time seekedAtMs).video.duration = v.duration ∧
      (seekTo v time seekedAtMs).positionWrites = [time] ∧
      (seekTo v time seekedAtMs).listenerRemoved = true := by
  rcases seekedAtMs with _ | t
  · simp [seekTo]
  · by_cases ht : t < seekTimeoutMs <;> (simp [seekTo, ht]; try omega)

theorem seekTo_spec_witness :
    (((seekTo ⟨0, 10⟩ 4 (some 100)).outcome = .ok () ↔
      ∃ t, (some 100 : Option ℕ) = some t ∧ t < seekTimeoutMs) ∧
      ((seekTo ⟨0, 10⟩ 4 (some 100)).outcome = .error .seekTimeout ↔
        ∀ t, (some 100 : Option ℕ) = some t → seekTimeoutMs ≤ t) ∧
      (seekTo ⟨0, 10⟩ 4 (some 100)).video.currentTime = 4 ∧
      (seekTo ⟨0, 10⟩ 4 (some 100)).video.duration = (VideoState.mk 0 10).duration ∧
      (seekTo ⟨0, 10⟩ 4 (some 100)).positionWrites = [4] ∧
      (seekTo ⟨0, 10⟩ 4 (some 100)).listenerRemoved = true) :=
  seekTo_spec ⟨0, 10⟩ 4 (some 100)

/-! ## Thumbnail sampler -/

/-- Whether the seek for one sample succeeds, given the event oracle for that
sample (matches the resolve/reject split of `seekTo`). -/
def seekSucceeds (seekedAtMs : Option ℕ) : Bool :=
  match seekedAtMs with
  | some t => decide (t < seekTimeoutMs)
  | none => false

/-- The `for` loop of `generateThumbnails` (lines 101–112).  `n` is the
number of iterations left, `i` the current loop index.  `seekEv i` is the
seek-event oracle for sample `i`; `capture t` is the data URL
`canvas.toDataURL` produces for the frame at time `t`, or `none` if
`drawImage`/`toDataURL` throws (the `catch` skips the sample either way).
The 100 ms settle delay changes no modelled state.  Note the loop continues
from the post-seek video state even when the sample failed, because `seekTo`
assigns the position before waiting. -/
def thumbLoop (interval : ℚ) (seekEv : ℕ → Option ℕ)
    (capture : ℚ → Option String) :
    ℕ → ℕ → VideoState → List String × VideoState
  | 0, _, v => ([], v)
  | n + 1, i, v =>
      let time := (i : ℚ) * interval
      let s := seekTo v time (seekEv i)
      let rest := thumbLoop interval seekEv capture n (i + 1) s.video
      match s.outcome, capture time with
      | .ok _, some img => (img :: rest.1, rest.2)
      | .ok _, none => rest
      | .error _, _ => rest

/-- `generateThumbnails` (lines 84–118).  `ctxOk` models
`canvas.getContext("2d")` being non-null (the early return on line 91).  In
JS `duration / count` is non-finite for `count = 0`, but the interval is
only ever read inside the (then empty) loop. -/
def generateThumbnails (v : VideoState) (count : ℕ) (ctxOk : Bool)
    (seekEv : ℕ → Option ℕ) (capture : ℚ → Option String) :
    List String × VideoState :=
  let interval := v.duration / (count : ℚ)
  if !ctxOk then ([], v)
  else
    let originalTime := v.currentTime
    let r := thumbLoop interval seekEv capture count 0 v
    (r.1, { r.2 with currentTime := originalTime })

theorem seekTo_video_eq (v : VideoState) (time : ℚ) (seekedAtMs : Option ℕ) :
    (seekTo v time seekedAtMs).video = { v with currentTime := time } := by
  rcases seekedAtMs with _ | t
  · rfl
  · by_cases ht : t < seekTimeoutMs <;> simp [seekTo, ht]

theorem seekTo_outcome_eq (v : VideoState) (time : ℚ) (seekedAtMs : Option ℕ) :
    (seekTo v time seekedAtMs).outcome =
      if seekSucceeds seekedAtMs then .ok () else .error .seekTimeout := by
  rcases seekedAtMs with _ | t
  · rfl
  · unfold seekTo seekSucceeds
    by_cases ht : t < seekTimeoutMs <;> simp [ht]

/-- The loop's second component never touches the duration field. -/
theorem thumbLoop_duration (interval : ℚ) (seekEv : ℕ → Option ℕ)
    (capture : ℚ → Option String) :
    ∀ (n i : ℕ) (v : VideoState),
      (thumbLoop interval seekEv capture n i v).2.duration = v.duration := by
  intro n
  induction n with
  | zero => intro i v; rfl
  | succ n ih =>
      intro i v
      rcases Bool.eq_false_or_eq_true (seekSucceeds (seekEv i)) with hs | hs <;>
        rcases hc : capture ((i : ℚ) * interval) with _ | img <;>
          simp only [thumbLoop, seekTo_video_eq, seekTo_outcome_eq, hs, hc,
            if_true, if_false, Bool.false_eq_true] <;>
            exact ih (i + 1) _

/-- The thumbnails the loop collects: one entry per index whose seek and
capture both succeed, in index order. -/
theorem thumbLoop_fst (interval : ℚ) (seekEv : ℕ → Option ℕ)
    (capture : ℚ → Option String) :
    ∀ (n i : ℕ) (v : VideoState),
      (thumbLoop interval seekEv capture n i v).1 =
        (List.range' i n).filterMap fun j =>
          if seekSucceeds (seekEv j) then capture ((j : ℚ) * interval)
          else none := by
  intro n
  induction n with
  | zero => intro i v; rfl
  | succ n ih =>
      intro i v
      rw [List.range'_succ, List.filterMap_cons]
      rcases Bool.eq_false_or_eq_true (seekSucceeds (seekEv i)) with hs | hs <;>
        rcases hc : capture ((i : ℚ) * interval) with _ | img <;>
          simp only [thumbLoop, seekTo_video_eq, seekTo_outcome_eq, hs, hc,
            if_true, if_false, Bool.false_eq_true] <;>
            rw [ih (i + 1)]

/-- C5: with a finite positive duration, `generateThumbnails` samples exactly
the timestamps `i * (duration / count)` for `i ∈ [0, count)`; each sample
contributes iff its seek and capture succeed, so failures skip only that
sample; `count = 0` yields `[]` without error; the result never exceeds
`count` entries (also when the canvas context is unavailable); and the
sampled timestamps are strictly increasing. -/
theorem generateThumbnails_spec (v : VideoState) (count : ℕ)
    (seekEv : ℕ → Option ℕ) (capture : ℚ → Option String)
    (hd : 0 < v.duration) :
    (generateThumbnails v count true seekEv capture).1 =
        ((List.range count).filterMap fun i =>
          if seekSucceeds (seekEv i) then
            capture ((i : ℚ) * (v.duration / (count : ℚ)))
          else none) ∧
      (∀ ctxOk, (generateThumbnails v count ctxOk seekEv capture).1.length ≤ count) ∧
      (count = 0 → (generateThumbnails v count true seekEv capture).1 = []) ∧
      (∀ i j : ℕ, i < j → j < count →
        (i : ℚ) * (v.duration / (count : ℚ)) <
          (j : ℚ) * (v.duration / (count : ℚ))) := by
  have hfst : (generateThumbnails v count true seekEv capture).1 =
      (List.range count).filterMap fun i =>
        if seekSucceeds (seekEv i) then
          capture ((i : ℚ) * (v.duration / (count : ℚ)))
        else none := by
    unfold generateThumbnails
    simp only [Bool.not_true, Bool.false_eq_true, if_false]
    rw [thumbLoop_fst, ← List.range_eq_range']
  refine ⟨hfst, ?_, ?_, ?_⟩
  · intro ctxOk
    cases ctxOk
    · simp [generateThumbnails]
    · rw [hfst]
      calc (List.filterMap _ (List.range count)).length
          ≤ (List.range count).length := List.length_filterMap_le _ _
        _ = count := List.length_range count
  · intro hc
    rw [hfst, hc]
    rfl
  · intro i j hij hjc
    have hcpos : (0 : ℚ) < (count : ℚ) :=
      Nat.cast_pos.mpr (lt_of_le_of_lt (Nat.zero_le j) hjc)
    exact mul_lt_mul_of_pos_right (Nat.cast_lt.mpr hij) (div_pos hd hcpos)

theorem generateThumbnails_spec_witness :
    (0:ℚ) < (VideoState.mk 7 10).duration ∧
      ((generateThumbnails ⟨7, 10⟩ 2 true (fun _ => some 0) (fun _ => some "t")).1 =
          ((List.range 2).filterMap fun i =>
            if seekSucceeds ((fun _ => some 0) i) then
              (fun _ => some "t") ((i : ℚ) * ((VideoState.mk 7 10).duration / (2 : ℚ)))
            else none) ∧
        (∀ ctxOk,
          (generateThumbnails ⟨7, 10⟩ 2 ctxOk (fun _ => some 0) (fun _ => some "t")).1.length ≤ 2) ∧
        (2 = 0 → (generateThumbnails ⟨7, 10⟩ 2 true (fun _ => some 0) (fun _ => some "t")).1 = []) ∧
        (∀ i j : ℕ, i < j → j < 2 →
          (i : ℚ) * ((VideoState.mk 7 10).duration / (2 : ℚ)) <
            (j : ℚ) * ((VideoState.mk 7 10).duration / (2 : ℚ)))) :=
  ⟨by norm_num,
    generateThumbnails_spec ⟨7, 10⟩ 2 (fun _ => some 0) (fun _ => some "t")
      (by norm_num)⟩

/-- C6: `generateThumbnails` leaves the source exactly as it found it: the
playback position is restored to the value captured at entry (line 99 /
line 115), and no other attribute of the source is written at all — whether
the canvas context was available or not, and however many samples failed. -/
theorem generateThumbnails_restores_position (v : VideoState) (count : ℕ)
    (ctxOk : Bool) (seekEv : ℕ → Option ℕ) (capture : ℚ → Option String) :
    (generateThumbnails v count ctxOk seekEv capture).2 = v := by
  cases ctxOk
  · rfl
  · unfold generateThumbnails
    simp only [Bool.not_true, Bool.false_eq_true, if_false]
    have hdur := thumbLoop_duration (v.duration / (count : ℚ)) seekEv capture
      count 0 v
    obtain ⟨ct, d⟩ := v
    simp only at hdur ⊢
    rw [VideoState.mk.injEq]
    exact ⟨rfl, hdur⟩

theorem generateThumbnails_restores_position_witness :
    (generateThumbnails ⟨3, 9⟩ 3 true (fun _ => some 0) (fun _ => none)).2 =
      VideoState.mk 3 9 :=
  generateThumbnails_restores_position ⟨3, 9⟩ 3 true (fun _ => some 0)
    (fun _ => none)

end CuttingPage
